import Mathlib

/-!
Shallow embedding of the field-detail session store
(`src/app/src/modules/settings/routes/data-model/field-detail/store.ts`).

JavaScript objects are modelled as structures whose optional keys are `Option`
fields; `none` stands for an absent key (`undefined`) or `null`.  The external
schema catalog (the `collectionsStore` / `fieldsStore` / `relationsStore`
collaborators, spec section 6) is modelled as finite association lists, with the
three read interfaces `collectionExists`, `fieldExists` and
`getPrimaryKeyFieldForCollection` defined over them.
-/

/-- Schema block of a field draft (store.ts lines 51-58 and the literals inside
the sync rules).  Every key is optional because the source builds these objects
with different subsets of keys. -/
structure FieldSchema where
  default_value : Option Bool := none
  max_length : Option Nat := none
  is_nullable : Option Bool := none
  is_unique : Option Bool := none
  numeric_precision : Option Nat := none
  numeric_scale : Option Nat := none
  has_auto_increment : Option Bool := none
  is_primary_key : Option Bool := none
deriving DecidableEq, Repr

/-- Meta block of a field draft (store.ts lines 59-68 and field literals). -/
structure FieldMeta where
  hidden : Option Bool := none
  interface : Option String := none
  options : Option (List (String × String)) := none
  display : Option String := none
  display_options : Option String := none
  readonly : Option Bool := none
  special : Option (List String) := none
  note : Option String := none
  width : Option String := none
deriving DecidableEq, Repr

/-- The field under construction (`state.fieldData`), also used for stored
catalog field records and for the field lists of proposed collections. -/
structure FieldDraft where
  field : String := ""
  type : Option String := none
  schema : Option FieldSchema := none
  meta : Option FieldMeta := none
deriving DecidableEq, Repr

/-- Meta block of a relation draft. -/
structure RelationMeta where
  one_field : Option String := none
  sort_field : Option String := none
  junction_field : Option String := none
  one_allowed_collections : Option (List String) := none
  one_collection_field : Option String := none
deriving DecidableEq, Repr

/-- One endpoint of a relationship (`state.relations[i]`).
`one_primary`, `one_collection_field` and `sort_field` are the top-level
properties read by `useM2A` (store.ts lines 879-880 and 903); `one_primary` is
read at line 903 but assigned by no code path. -/
structure RelationDraft where
  collection : String := ""
  field : String := ""
  related_collection : Option String := none
  meta : Option RelationMeta := none
  one_primary : Option String := none
  one_collection_field : Option String := none
  sort_field : Option String := none
deriving DecidableEq, Repr

/-- Meta block of a proposed collection literal. -/
structure CollectionMeta where
  hidden : Option Bool := none
  icon : Option String := none
deriving DecidableEq, Repr

/-- An entry of `state.newCollections`.  `typeTag` models the transient
`$type` marker (`$` is not a legal Lean identifier character).  The
`collection` key stores the raw JS value, hence `Option`. -/
structure NewCollectionEntry where
  typeTag : Option String := none
  collection : Option String := none
  meta : Option CollectionMeta := none
  fields : List FieldDraft := []
deriving DecidableEq, Repr

/-- An entry of `state.newFields` (a `Field` literal plus the `$type` tag). -/
structure NewFieldEntry where
  typeTag : Option String := none
  collection : String := ""
  field : String := ""
  type : Option String := none
  schema : Option FieldSchema := none
  meta : Option FieldMeta := none
deriving DecidableEq, Repr

/-- A starter row of the auto-generated languages collection. -/
structure LangRow where
  code : String
  name : String
deriving DecidableEq, Repr

/-- The session state (`state`, store.ts lines 27-35).  `newRows` is the
record mapping collection names to seed rows, modelled as an association
list. -/
structure StoreState where
  fieldData : FieldDraft := {}
  relations : List RelationDraft := []
  newCollections : List NewCollectionEntry := []
  newFields : List NewFieldEntry := []
  updateFields : List FieldDraft := []
  newRows : List (String × List LangRow) := []
  autoFillJunctionRelation : Bool := false
deriving DecidableEq, Repr

/-- The external schema catalog snapshot (spec section 6): existing collection
names, the stored fields of each collection, and the stored relation records
per (collection, field) pair. -/
structure Catalog where
  collections : List String := []
  fieldsOf : List (String × List FieldDraft) := []
  relationsOf : List (String × String × List RelationDraft) := []
deriving DecidableEq, Repr

/-- `collectionExists` (store.ts lines 955-957): the collections store holds a
collection of that name. -/
def collectionExists (cat : Catalog) (collection : String) : Bool :=
  decide (collection ∈ cat.collections)

/-- `collectionExists` applied to a raw JS value: `undefined` and `null` never
name an existing collection. -/
def collectionExistsO (cat : Catalog) : Option String → Bool
  | none => false
  | some c => collectionExists cat c

/-- The stored fields of a collection (empty when unknown). -/
def collectionFields (cat : Catalog) (collection : String) : List FieldDraft :=
  match cat.fieldsOf.find? (fun p => p.1 == collection) with
  | some p => p.2
  | none => []

/-- `fieldsStore.getField`. -/
def getField (cat : Catalog) (collection field : String) : Option FieldDraft :=
  (collectionFields cat collection).find? (fun fd => fd.field == field)

/-- `fieldsStore.getPrimaryKeyFieldForCollection`: the stored field marked as
primary key in its schema. -/
def getPrimaryKeyFieldForCollection (cat : Catalog) (collection : String) : Option FieldDraft :=
  (collectionFields cat collection).find?
    (fun fd => (fd.schema.getD {}).is_primary_key == some true)

/-- `fieldExists` (store.ts lines 959-961). -/
def fieldExists (cat : Catalog) (collection field : String) : Bool :=
  collectionExists cat collection && (getField cat collection field).isSome

/-- `fieldExists` applied to a raw JS field value: absent values never name an
existing field. -/
def fieldExistsO (cat : Catalog) (collection : String) : Option String → Bool
  | none => false
  | some f => fieldExists cat collection f

/-- `relationsStore.getRelationsForField`. -/
def getRelationsForField (cat : Catalog) (collection field : String) : List RelationDraft :=
  match cat.relationsOf.find? (fun p => p.1 == collection && p.2.1 == field) with
  | some p => p.2.2
  | none => []

/-- JS truthiness of a string: only the empty string is falsy. -/
def jsTruthy (s : String) : Bool := !(s == "")

/-- JS truthiness of a possibly-absent string. -/
def jsTruthyO : Option String → Bool
  | none => false
  | some s => jsTruthy s

/-- Template-literal interpolation of a possibly-absent string: an absent
property interpolates as the literal text "undefined". -/
def jsStrU : Option String → String
  | none => "undefined"
  | some s => s

/-- Decimal digit character, as produced by JS number stringification. -/
def jsDigitChar (d : Nat) : Char := Char.ofNat (48 + d)

/-- Fuel-driven decimal printer (most significant digit first).  The fuel
`n + 1` used below is always sufficient, so this computes the ordinary decimal
numeral. -/
def decCharsAux : Nat → Nat → List Char
  | 0, _ => []
  | fuel + 1, n =>
    if n < 10 then [jsDigitChar n]
    else decCharsAux fuel (n / 10) ++ [jsDigitChar (n % 10)]

/-- Decimal representation of a natural number, modelling how JavaScript
stringifies the numeric suffix index in the naming helper. -/
def decRepr (n : Nat) : String := ⟨decCharsAux (n + 1) n⟩

/-- The inner `getName` of the junction naming helper (store.ts lines
713-717): candidate 0 is `a_b`, candidate i (i > 0) is `a_b_i`. -/
def getName (a b : String) (index : Nat) : String :=
  let name := a ++ "_" ++ b
  if index ≠ 0 then name ++ "_" ++ decRepr index else name

/-- The while loop of getAutomaticJunctionCollectionName (store.ts 702-711),
fuel-driven: probes candidates from the given index upward and returns the
first one for which collectionExists is false.  The fuel used below is proven
sufficient, so this computes exactly the result of the unbounded source
loop. -/
def findFreeNameAux (cat : Catalog) (a b : String) : Nat → Nat → String
  | 0, i => getName a b i
  | fuel + 1, i =>
    if collectionExists cat (getName a b i) then findFreeNameAux cat a b fuel (i + 1)
    else getName a b i

/-- The index (number of extra suffix probes) at which the loop stops. -/
def junctionNameIndexAux (cat : Catalog) (a b : String) : Nat → Nat → Nat
  | 0, i => i
  | fuel + 1, i =>
    if collectionExists cat (getName a b i) then junctionNameIndexAux cat a b fuel (i + 1)
    else i

/-- getAutomaticJunctionCollectionName on the two base names (in the source
they are read from relations[0].related_collection and
relations[1].related_collection). -/
def getAutomaticJunctionCollectionName (cat : Catalog) (a b : String) : String :=
  findFreeNameAux cat a b (cat.collections.length + 1) 0

/-- The index of the candidate the naming helper returns; the number of
catalog probes performed by the source loop is this index plus one. -/
def junctionNameIndex (cat : Catalog) (a b : String) : Nat :=
  junctionNameIndexAux cat a b (cat.collections.length + 1) 0

/-- Out-of-range modification is a no-op (the JS source would throw there; no
modelled execution reaches that case). -/
def listModify (f : α → α) : Nat → List α → List α
  | _, [] => []
  | 0, x :: xs => f x :: xs
  | n + 1, x :: xs => x :: listModify f n xs

/-- Read of `state.relations[i]`. -/
def relAt (s : StoreState) (i : Nat) : RelationDraft :=
  s.relations.getD i {}

/-- Mutation of `state.relations[i]`. -/
def setRel (i : Nat) (f : RelationDraft → RelationDraft) (s : StoreState) : StoreState :=
  { s with relations := listModify f i s.relations }

/-- The spread-update pattern `rel.meta = { ...(rel.meta || {}), key: v }`. -/
def withRelMeta (f : RelationMeta → RelationMeta) (r : RelationDraft) : RelationDraft :=
  { r with meta := some (f (r.meta.getD {})) }

/-- The spread-update pattern on `state.fieldData.meta`. -/
def withFieldMeta (f : FieldMeta → FieldMeta) (s : StoreState) : StoreState :=
  { s with fieldData := { s.fieldData with meta := some (f (s.fieldData.meta.getD {})) } }

/-- `delete state.fieldData.schema; delete state.fieldData.type` (the entry
statements of useO2M, useM2M and useM2A). -/
def deleteSchemaAndType (s : StoreState) : StoreState :=
  { s with fieldData := { s.fieldData with schema := none, type := none } }

/-- `[...].includes(x)` on a possibly-absent tag: an absent tag is never
included. -/
def jsIncludes (l : List String) : Option String → Bool
  | none => false
  | some s => l.contains s

/-- `getPrimaryKeyFieldForCollection(c)!.type` and
`getPrimaryKeyFieldForCollection(c)?.type`.  The non-null assertion would
throw in JS when the lookup fails; that case is modelled as none and is not
reached by the modelled executions. -/
def pkType (cat : Catalog) (collection : String) : Option String :=
  match getPrimaryKeyFieldForCollection cat collection with
  | some f => f.type
  | none => none

/-- `?.type` on a primary-key lookup of a raw collection value. -/
def pkTypeO (cat : Catalog) : Option String → Option String
  | none => none
  | some c => pkType cat c

/-- `getPrimaryKeyFieldForCollection(c)?.field`. -/
def pkFieldName (cat : Catalog) (collection : String) : Option String :=
  (getPrimaryKeyFieldForCollection cat collection).map (fun f => f.field)

/-- The seven starter locale rows (store.ts 510-539). -/
def languageSeedRows : List LangRow :=
  [⟨"en-US", "English"⟩, ⟨"de-DE", "German"⟩, ⟨"fr-FR", "French"⟩, ⟨"ru-RU", "Russian"⟩,
   ⟨"es-ES", "Spanish"⟩, ⟨"it-IT", "Italian"⟩, ⟨"pt-BR", "Portuguese"⟩]

/-- Junction collection literal (store.ts 385-404 and 736-755). -/
def junctionCollectionEntry (junctionCollection : String) : NewCollectionEntry :=
  { typeTag := some "junction"
    collection := some junctionCollection
    meta := some { hidden := some true, icon := some "import_export" }
    fields := [{ field := "id", type := some "integer",
                 schema := some { has_auto_increment := some true },
                 meta := some { hidden := some true } }] }

/-- Related collection literal of syncNewCollectionsO2M (store.ts 291-307). -/
def o2mRelatedCollectionEntry (collectionName : String) : NewCollectionEntry :=
  { typeTag := some "related"
    collection := some collectionName
    fields := [{ field := "id", type := some "integer",
                 schema := some { has_auto_increment := some true, is_primary_key := some true },
                 meta := some { hidden := some true } }] }

/-- Generic related collection literal of syncNewCollectionsM2M
(store.ts 488-503). -/
def m2mRelatedCollectionEntry (relatedCollection : Option String) : NewCollectionEntry :=
  { typeTag := some "related"
    collection := relatedCollection
    fields := [{ field := "id", type := some "integer",
                 schema := some { has_auto_increment := some true },
                 meta := some { hidden := some true } }] }

/-- Translations related collection literal (store.ts 452-486): string
primary key plus a name field. -/
def translationsRelatedCollectionEntry (relatedCollection : Option String) : NewCollectionEntry :=
  { typeTag := some "related"
    collection := relatedCollection
    meta := some { icon := some "translate" }
    fields := [
      { field := "id", type := some "string"
        schema := some { is_primary_key := some true }
        meta := some { interface := some "input", options := some [("iconLeft", "vpn_key")],
                       width := some "half" } },
      { field := "name", type := some "string", schema := some {}
        meta := some { interface := some "input", options := some [("iconLeft", "translate")],
                       width := some "half" } }] }

/-- The manyCurrent junction foreign-key field literal (store.ts 408-418 and
759-768). -/
def manyCurrentFieldEntry (junctionCollection manyCurrent : String) (tp : Option String) : NewFieldEntry :=
  { typeTag := some "manyCurrent", collection := junctionCollection, field := manyCurrent,
    type := tp, schema := some {}, meta := some { hidden := some true } }

/-- The manyRelated junction foreign-key field literal of useM2M and useM2A
(store.ts 422-446 and 772-783). -/
def manyRelatedFieldEntry (junctionCollection manyRelated : String) (tp : Option String) : NewFieldEntry :=
  { typeTag := some "manyRelated", collection := junctionCollection, field := manyRelated,
    type := tp, schema := some {}, meta := some { hidden := some true } }

/-- The manyRelated field literal of syncNewCollectionsO2M (store.ts 311-319;
note: no meta block). -/
def o2mManyRelatedFieldEntry (collectionName fieldName : String) (tp : Option String) : NewFieldEntry :=
  { typeTag := some "manyRelated", collection := collectionName, field := fieldName,
    type := tp, schema := some {} }

/-- The sort field literal (store.ts 323-332, 547-556 and 800-809). -/
def sortFieldEntry (collection field : String) : NewFieldEntry :=
  { typeTag := some "sort", collection := collection, field := field,
    type := some "integer", schema := some {}, meta := some { hidden := some true } }

/-- The collection discriminator field literal of syncNewCollectionsM2A
(store.ts 787-796). -/
def collectionFieldEntry (junctionCollection field : String) : NewFieldEntry :=
  { typeTag := some "collectionField", collection := junctionCollection, field := field,
    type := some "string", schema := some {}, meta := some { hidden := some true } }

/-- Body of the throttled syncNewCollectionsO2M (store.ts 285-334); the
arguments are the watched paths relations[0].collection, relations[0].field
and relations[0].meta?.sort_field. -/
def syncNewCollectionsO2M (cat : Catalog) (collectionName fieldName : String)
    (sortField : Option String) (s : StoreState) : StoreState :=
  let keptCollections := s.newCollections.filter (fun col => !(jsIncludes ["related"] col.typeTag))
  let keptFields := s.newFields.filter (fun f => !(jsIncludes ["manyRelated", "sort"] f.typeTag))
  let relatedAdd :=
    if collectionExists cat collectionName = false then [o2mRelatedCollectionEntry collectionName] else []
  let manyRelatedAdd :=
    if fieldExists cat collectionName fieldName = false then
      [o2mManyRelatedFieldEntry collectionName fieldName
        (if collectionExists cat collectionName then pkType cat collectionName else some "integer")]
    else []
  let sortAdd :=
    if jsTruthyO sortField && !(fieldExistsO cat collectionName sortField) then
      [sortFieldEntry collectionName (jsStrU sortField)]
    else []
  { s with newCollections := keptCollections ++ relatedAdd
           newFields := keptFields ++ manyRelatedAdd ++ sortAdd }

/-- Body of the throttled syncNewCollectionsM2M (store.ts 375-560); tp is the
local type of the session, collection its parent collection, and the remaining
arguments are the watched paths (store.ts 610-619). -/
def syncNewCollectionsM2M (cat : Catalog) (tp collection : String)
    (junctionCollection manyCurrent manyRelated : String)
    (relatedCollection sortField : Option String) (s : StoreState) : StoreState :=
  let keptCollections := s.newCollections.filter (fun col => !(jsIncludes ["junction", "related"] col.typeTag))
  let keptFields := s.newFields.filter (fun f => !(jsIncludes ["manyCurrent", "manyRelated", "sort"] f.typeTag))
  let junctionAdd :=
    if collectionExists cat junctionCollection = false then [junctionCollectionEntry junctionCollection] else []
  let manyCurrentAdd :=
    if fieldExists cat junctionCollection manyCurrent = false then
      [manyCurrentFieldEntry junctionCollection manyCurrent (pkType cat collection)]
    else []
  let manyRelatedAdd :=
    if fieldExists cat junctionCollection manyRelated = false then
      (if tp == "translations" then
        [manyRelatedFieldEntry junctionCollection manyRelated
          (if collectionExistsO cat relatedCollection then pkTypeO cat relatedCollection else some "string")]
      else
        [manyRelatedFieldEntry junctionCollection manyRelated
          (if collectionExistsO cat relatedCollection then pkTypeO cat relatedCollection else some "integer")])
    else []
  let relatedAdd :=
    if collectionExistsO cat relatedCollection = false then
      (if tp == "translations" then [translationsRelatedCollectionEntry relatedCollection]
       else [m2mRelatedCollectionEntry relatedCollection])
    else []
  let rows :=
    if tp == "translations" then
      (if collectionExistsO cat relatedCollection = false then
        [(jsStrU relatedCollection, languageSeedRows)]
      else [])
    else s.newRows
  let sortAdd :=
    if jsTruthyO sortField && !(fieldExistsO cat junctionCollection sortField) then
      [sortFieldEntry junctionCollection (jsStrU sortField)]
    else []
  { s with newCollections := keptCollections ++ junctionAdd ++ relatedAdd
           newFields := keptFields ++ manyCurrentAdd ++ manyRelatedAdd ++ sortAdd
           newRows := rows }

/-- Body of the throttled syncNewCollectionsM2A (store.ts 725-813). -/
def syncNewCollectionsM2A (cat : Catalog) (collection : String)
    (junctionCollection manyCurrent manyRelated : String)
    (oneCollectionField sortField : Option String) (s : StoreState) : StoreState :=
  let keptCollections := s.newCollections.filter (fun col => !(jsIncludes ["junction", "related"] col.typeTag))
  let keptFields := s.newFields.filter
    (fun f => !(jsIncludes ["manyCurrent", "manyRelated", "collectionField", "sort"] f.typeTag))
  let junctionAdd :=
    if collectionExists cat junctionCollection = false then [junctionCollectionEntry junctionCollection] else []
  let manyCurrentAdd :=
    if fieldExists cat junctionCollection manyCurrent = false then
      [manyCurrentFieldEntry junctionCollection manyCurrent (pkType cat collection)]
    else []
  let manyRelatedAdd :=
    if fieldExists cat junctionCollection manyRelated = false then
      [manyRelatedFieldEntry junctionCollection manyRelated (some "string")]
    else []
  let collectionFieldAdd :=
    if fieldExistsO cat junctionCollection oneCollectionField = false then
      [collectionFieldEntry junctionCollection (jsStrU oneCollectionField)]
    else []
  let sortAdd :=
    if jsTruthyO sortField && !(fieldExistsO cat junctionCollection sortField) then
      [sortFieldEntry junctionCollection (jsStrU sortField)]
    else []
  { s with newCollections := keptCollections ++ junctionAdd
           newFields := keptFields ++ manyCurrentAdd ++ manyRelatedAdd ++ collectionFieldAdd ++ sortAdd }

/-- getAutomaticJunctionCollectionName as the source calls it: the base names
are relations[0].related_collection and relations[1].related_collection
(store.ts 713-717). -/
def getAutomaticJunctionCollectionNameState (cat : Catalog) (s : StoreState) : String :=
  getAutomaticJunctionCollectionName cat
    (jsStrU (relAt s 0).related_collection) (jsStrU (relAt s 1).related_collection)

/-- The throttled syncNewCollectionsM2M applied with the watched paths read
from the current state (store.ts 610-619). -/
def syncM2MFromState (cat : Catalog) (tp collection : String) (s : StoreState) : StoreState :=
  syncNewCollectionsM2M cat tp collection (relAt s 0).collection (relAt s 0).field
    (relAt s 1).field (relAt s 1).related_collection
    ((relAt s 0).meta.getD {}).sort_field s

/-- The throttled syncNewCollectionsM2A applied with the watched paths read
from the current state (store.ts 874-883); note that the last two paths are
the top-level relations[1].one_collection_field and relations[0].sort_field
properties. -/
def syncM2AFromState (cat : Catalog) (collection : String) (s : StoreState) : StoreState :=
  syncNewCollectionsM2A cat collection (relAt s 0).collection (relAt s 0).field
    (relAt s 1).field (relAt s 1).one_collection_field (relAt s 0).sort_field s

/-- Body of the junction autofill watcher of useM2M (store.ts 658-668),
parameterised by the new value of relations[1].related_collection. -/
def m2mAutoFillInnerBody (cat : Catalog) (newRelatedCollection : Option String)
    (s : StoreState) : StoreState :=
  let s :=
    if jsTruthyO newRelatedCollection then
      let s := setRel 0 (fun r => { r with collection := getAutomaticJunctionCollectionNameState cat s }) s
      setRel 1 (fun r => { r with collection := getAutomaticJunctionCollectionNameState cat s }) s
    else s
  if (relAt s 0).field == (relAt s 1).field then
    setRel 1 (fun r => { r with field := jsStrU (relAt s 1).related_collection ++ "_related_id" }) s
  else s

/-- Body of the fieldData.field watcher of useM2M (store.ts 621-642). -/
def m2mFieldDataFieldChangedBody (cat : Catalog) (tp : String) (s : StoreState) : StoreState :=
  let s := setRel 0 (withRelMeta (fun m => { m with one_field := some s.fieldData.field })) s
  if (jsTruthy s.fieldData.field && collectionExists cat s.fieldData.field
      && !(tp == "translations")) = true then
    let s := setRel 0 (fun r => { r with collection := getAutomaticJunctionCollectionNameState cat s }) s
    let s := setRel 0 (fun r => { r with field := jsStrU (relAt s 0).related_collection ++ "_id" }) s
    let s := setRel 1 (fun r => { r with related_collection := some s.fieldData.field }) s
    let junctionName := jsStrU (relAt s 0).related_collection ++ "_" ++ jsStrU (relAt s 1).related_collection
    let s := setRel 1 (fun r => { r with collection := junctionName }) s
    let s := setRel 1 (fun r => { r with field := jsStrU (relAt s 1).related_collection ++ "_id" }) s
    if (relAt s 0).field == (relAt s 1).field then
      setRel 1 (fun r => { r with field := jsStrU (relAt s 1).related_collection ++ "_related_id" }) s
    else s
  else s

/-- A user edit of relations[1].related_collection in an m2m or files session
and every rule it triggers: the junction autofill watcher body (store.ts
653-675) only while autoFillJunctionRelation is on (the watcher is installed
when the toggle turns on and stopped when it turns off, and is never
installed for translations), followed by the throttled
syncNewCollectionsM2M, which runs with the settled values. -/
def m2mRelatedCollectionChanged (cat : Catalog) (tp collection : String)
    (newRelated : Option String) (s : StoreState) : StoreState :=
  let s := setRel 1 (fun r => { r with related_collection := newRelated }) s
  let s :=
    if s.autoFillJunctionRelation && !(tp == "translations") then
      m2mAutoFillInnerBody cat newRelated s
    else s
  syncM2MFromState cat tp collection s

/-- Body of the related_collection watcher of useM2O (store.ts 256-266): keep
fieldData.type in sync with the primary key of the selected related
collection, falling back to integer. -/
def m2oRelatedCollectionRule (cat : Catalog) (s : StoreState) : StoreState :=
  if (jsTruthyO (relAt s 0).related_collection
      && collectionExistsO cat (relAt s 0).related_collection) = true then
    { s with fieldData := { s.fieldData with type := pkTypeO cat (relAt s 0).related_collection } }
  else
    { s with fieldData := { s.fieldData with type := some "integer" } }

/-- The fresh fieldData literal (store.ts 48-69). -/
def initialFieldData : FieldDraft :=
  { field := ""
    type := some "string"
    schema := some { default_value := none, max_length := none, is_nullable := some true,
                     is_unique := some false, numeric_precision := none, numeric_scale := none }
    meta := some { hidden := some false, interface := none, options := none, display := none,
                   display_options := none, readonly := some false, special := none,
                   note := none } }

/-- The fresh session state (store.ts 47-77). -/
def baseState : StoreState :=
  { fieldData := initialFieldData, relations := [], newCollections := [], newFields := [],
    updateFields := [], newRows := [], autoFillJunctionRelation := false }

/-- The translations block of useM2M (store.ts 678-700) together with the
reactive rules its assignments trigger once the flush settles: the immediate
mirror of relations[0].collection into relations[1].collection (679-685), the
junction_field mirrors (590-608), the one_field mirror (622-627, whose
junction autofill branch is off for translations), and the throttled
syncNewCollectionsM2M (610-619) running with the settled values. -/
def applyTranslationsBlock (cat : Catalog) (collection : String) (s : StoreState) : StoreState :=
  let s := setRel 0 (fun r => { r with collection := collection ++ "_translations" }) s
  let s := setRel 0 (fun r => { r with field := collection ++ "_" ++ jsStrU (pkFieldName cat collection) }) s
  let s := setRel 1 (fun r => { r with related_collection := some "languages" }) s
  let s := setRel 1 (fun r => { r with field := jsStrU (relAt s 1).related_collection ++ "_id" }) s
  let s := { s with fieldData := { s.fieldData with field := "translations" } }
  let s := setRel 0 (withRelMeta (fun m => { m with one_field := some "translations" })) s
  let s := setRel 1 (fun r => { r with collection := (relAt s 0).collection }) s
  let s := setRel 1 (withRelMeta (fun m => { m with junction_field := some (relAt s 0).field })) s
  let s := setRel 0 (withRelMeta (fun m => { m with junction_field := some (relAt s 1).field })) s
  let s := setRel 0 (withRelMeta (fun m => { m with one_field := some s.fieldData.field })) s
  syncM2MFromState cat "translations" collection s

/-- useFile for a new field (store.ts 179-193), synchronous part. -/
def useFileNew (collection : String) (s : StoreState) : StoreState :=
  let s := { s with fieldData := { s.fieldData with type := some "uuid" } }
  { s with relations := [
      { collection := collection, field := "", related_collection := some "directus_files",
        meta := some { sort_field := none } }] }

/-- useM2O for a new field (store.ts 234-245), synchronous part. -/
def useM2ONew (collection : String) (s : StoreState) : StoreState :=
  { s with relations := [
      { collection := collection, field := "", related_collection := some "",
        meta := some { sort_field := none } }] }

/-- useO2M for a new field (store.ts 281-283 and 336-353), synchronous
part. -/
def useO2MNew (collection : String) (s : StoreState) : StoreState :=
  let s := deleteSchemaAndType s
  let s := withFieldMeta (fun m => { m with special := some ["o2m"] }) s
  { s with relations := [
      { collection := "", field := "", related_collection := some collection,
        meta := some { one_field := some s.fieldData.field, sort_field := none } }] }

/-- The default relation pair of useM2M for a new field (store.ts 562-588). -/
def useM2MNewRelations (collection : String) (s : StoreState) : StoreState :=
  { s with relations := [
      { collection := "", field := "", related_collection := some collection,
        meta := some { one_field := some s.fieldData.field, sort_field := none } },
      { collection := "", field := "", related_collection := some "",
        meta := some { one_field := none, sort_field := none } }] }

/-- Body of the immediate autoFillJunctionRelation watcher of useM2A
(store.ts 897-909), together with the junction_field mirror watchers
(854-872) and the throttled syncNewCollectionsM2A (874-883) its assignments
trigger.  The relations[0].collection watcher (845-852) computes a
primary-key lookup but assigns nothing (dead code), so it contributes no
state change.  Note line 903: relations[0].one_primary is read here but
assigned nowhere, so it interpolates as the text undefined. -/
def m2aAutoFillToggleBody (cat : Catalog) (collection : String) (s : StoreState) : StoreState :=
  if s.autoFillJunctionRelation = true then
    let junctionName := jsStrU (relAt s 0).related_collection ++ "_" ++ s.fieldData.field
    let s := setRel 0 (fun r => { r with collection := junctionName }) s
    let junctionName2 := jsStrU (relAt s 0).related_collection ++ "_" ++ s.fieldData.field
    let s := setRel 1 (fun r => { r with collection := junctionName2 }) s
    let currentFk := jsStrU (relAt s 0).related_collection ++ "_" ++ jsStrU (relAt s 0).one_primary
    let s := setRel 0 (fun r => { r with field := currentFk }) s
    let s := setRel 1 (fun r => { r with one_collection_field := some "collection" }) s
    let s := setRel 1 (fun r => { r with field := "item" }) s
    let s := setRel 1 (withRelMeta (fun m => { m with junction_field := some (relAt s 0).field })) s
    let s := setRel 0 (withRelMeta (fun m => { m with junction_field := some (relAt s 1).field })) s
    syncM2AFromState cat collection s
  else s

/-- useM2A for a new field (store.ts 721-843), synchronous part plus the
immediate watcher (897-909), which fires during initialization with
autoFillJunctionRelation on. -/
def useM2ANew (cat : Catalog) (collection : String) (s : StoreState) : StoreState :=
  let s := deleteSchemaAndType s
  let s := withFieldMeta (fun m => { m with special := some ["m2a"] }) s
  let s := { s with relations := [
      { collection := "", field := "", related_collection := some collection,
        meta := some { one_field := some s.fieldData.field, sort_field := none } },
      { collection := "", field := "", related_collection := none,
        meta := some { one_field := none, one_allowed_collections := some [],
                       one_collection_field := some "", sort_field := none } }] }
  m2aAutoFillToggleBody cat collection s

/-- usePresentation (store.ts 912-917): runs unconditionally, also for an
existing field. -/
def usePresentationApply (s : StoreState) : StoreState :=
  let s := { s with fieldData := { s.fieldData with schema := none, type := none } }
  withFieldMeta (fun m => { m with special := some ["alias", "no-data"] }) s

/-- useM2M for a new field (store.ts 371-718): deletes, special tag, default
relations, the deferred files assignment (644-648) with the rules it
triggers, and the unconditional translations block. -/
def useM2MNew (cat : Catalog) (collection tp : String) (s : StoreState) : StoreState :=
  let s := deleteSchemaAndType s
  let s := withFieldMeta (fun m => { m with special := some [tp] }) s
  let s := useM2MNewRelations collection s
  let s :=
    if tp == "files" then
      let s := setRel 1 (fun r => { r with related_collection := some "directus_files" }) s
      let s := m2mAutoFillInnerBody cat (some "directus_files") s
      syncM2MFromState cat tp collection s
    else s
  if tp == "translations" then applyTranslationsBlock cat collection s else s

/-- initLocalStore for a new field (sentinel "+", store.ts 43-177): fresh
state, autoFillJunctionRelation on (145), the translations interface default
(167-169), and the synchronous part of the category hook including the rules
fired by immediate watchers, as settled once the reactive flush and the
throttled rules have run. -/
def initLocalStoreNew (cat : Catalog) (collection tp : String) : StoreState :=
  let s := { baseState with autoFillJunctionRelation := true }
  let s :=
    if tp == "translations" then
      withFieldMeta (fun m => { m with interface := some "translations" }) s
    else s
  if tp == "file" then useFileNew collection s
  else if tp == "m2o" then useM2ONew collection s
  else if tp == "m2m" || tp == "files" || tp == "translations" then useM2MNew cat collection tp s
  else if tp == "o2m" then useO2MNew collection s
  else if tp == "presentation" then usePresentationApply s
  else if tp == "m2a" then useM2ANew cat collection s
  else s

/-- initLocalStore for an existing field (store.ts 135-143 plus the
synchronous statements of the category hooks).  For an existing field
autoFillJunctionRelation stays false, so the immediate watchers are inert;
the only category hooks with unconditional effects are the schema/type
deletes of the relational categories, usePresentation, the deferred files
assignment (no-op when the stored value is already directus_files), and the
translations block.  Returns none when the field is not in the catalog (the
source would fault on the missing record; spec section 7 requires failing
fast). -/
def initLocalStoreExisting (cat : Catalog) (collection field tp : String) : Option StoreState :=
  match getField cat collection field with
  | none => none
  | some existingField =>
    let s := { baseState with
      fieldData := { field := existingField.field, type := existingField.type,
                     schema := existingField.schema, meta := existingField.meta }
      relations := getRelationsForField cat collection field }
    some (
      if tp == "m2m" || tp == "files" || tp == "translations" then
        let s := deleteSchemaAndType s
        let s :=
          if tp == "files" then
            (if (relAt s 1).related_collection == some "directus_files" then s
             else
               syncM2MFromState cat tp collection
                 (setRel 1 (fun r => { r with related_collection := some "directus_files" }) s))
          else s
        if tp == "translations" then applyTranslationsBlock cat collection s else s
      else if tp == "o2m" then deleteSchemaAndType s
      else if tp == "presentation" then usePresentationApply s
      else if tp == "m2a" then deleteSchemaAndType s
      else s)

/-- initLocalStore (store.ts 43-962): the sentinel "+" distinguishes a new
field (133). -/
def initLocalStore (cat : Catalog) (collection field tp : String) : Option StoreState :=
  if field == "+" then some (initLocalStoreNew cat collection tp)
  else initLocalStoreExisting cat collection field tp

/-- Runtime wrapper for the teardown claim: the module-level state cell plus
whether some throttled sync rule currently has a trailing invocation
scheduled (lodash throttle, 50 ms window, leading and trailing edges). -/
structure FieldDetailRuntime where
  store : Option StoreState
  pendingTrailingSync : Bool
deriving DecidableEq, Repr

/-- clearLocalStore (store.ts 964-966): `state = null`, and nothing else — in
particular no cancel call on the throttled sync rules, so a pending trailing
invocation survives teardown. -/
def clearLocalStoreRuntime (r : FieldDetailRuntime) : FieldDetailRuntime :=
  { r with store := none }

/-- Events of the teardown model: a dependency change while the throttle
window is open (which schedules a trailing invocation of the sync rule), the
teardown call, and the elapse of the throttle window (which runs the pending
rule, whatever the state cell now holds). -/
inductive FdEvent
  | mutateDep
  | teardown
  | throttleWindowElapse
deriving DecidableEq, Repr

/-- Observed trace state: the runtime, whether teardown has happened, and
whether some throttled sync rule body ran after teardown. -/
structure FdTrace where
  runtime : FieldDetailRuntime
  tornDown : Bool
  syncRanAfterTeardown : Bool
deriving DecidableEq, Repr

def fdStep (t : FdTrace) : FdEvent → FdTrace
  | .mutateDep => { t with runtime := { t.runtime with pendingTrailingSync := true } }
  | .teardown => { t with runtime := clearLocalStoreRuntime t.runtime, tornDown := true }
  | .throttleWindowElapse =>
    if t.runtime.pendingTrailingSync then
      { t with runtime := { t.runtime with pendingTrailingSync := false },
               syncRanAfterTeardown := t.syncRanAfterTeardown || t.tornDown }
    else t

def fdRun (events : List FdEvent) : FdTrace :=
  events.foldl fdStep
    { runtime := { store := some baseState, pendingTrailingSync := false },
      tornDown := false, syncRanAfterTeardown := false }

/-! ## Concrete catalog and state fixtures used by witnesses and counterexamples -/

/-- An integer auto-increment primary-key field record. -/
def pkIdInteger : FieldDraft :=
  { field := "id", type := some "integer",
    schema := some { is_primary_key := some true, has_auto_increment := some true } }

/-- A uuid primary-key field record. -/
def pkIdUuid : FieldDraft :=
  { field := "id", type := some "uuid", schema := some { is_primary_key := some true } }

/-- A stored alias field named translations. -/
def storedTranslationsField : FieldDraft :=
  { field := "translations", type := some "alias", meta := some { special := some ["translations"] } }

/-- A stored alias field named tags (an existing m2m field). -/
def storedTagsField : FieldDraft :=
  { field := "tags", type := some "alias", meta := some { special := some ["m2m"] } }

/-- Stored relation records of the existing translations field: the user had
chosen a junction collection named custom_junction. -/
def storedTranslationsRelations : List RelationDraft :=
  [{ collection := "custom_junction", field := "articles_id", related_collection := some "articles",
     meta := some { one_field := some "translations" } },
   { collection := "custom_junction", field := "languages_id",
     related_collection := some "languages" }]

/-- Stored relation records of the existing tags m2m field. -/
def storedTagsRelations : List RelationDraft :=
  [{ collection := "articles_tags", field := "articles_id", related_collection := some "articles",
     meta := some { one_field := some "tags" } },
   { collection := "articles_tags", field := "tags_id", related_collection := some "tags" }]

/-- A catalog holding a single articles collection with an integer primary
key. -/
def catArticles : Catalog :=
  { collections := ["articles"], fieldsOf := [("articles", [pkIdInteger])], relationsOf := [] }

/-- A catalog whose authors collection has a uuid primary key. -/
def catAuthors : Catalog :=
  { collections := ["authors"], fieldsOf := [("authors", [pkIdUuid])], relationsOf := [] }

/-- A catalog in which both a_b and a_b_1 are taken. -/
def catTakenNames : Catalog :=
  { collections := ["a_b", "a_b_1"] }

/-- A catalog with existing articles fields translations (stored with a
custom junction) and tags (a stored m2m field), plus the collections the
stored relations refer to. -/
def catExistingFields : Catalog :=
  { collections := ["articles", "custom_junction", "languages", "tags", "articles_tags"]
    fieldsOf := [("articles", [pkIdInteger, storedTranslationsField, storedTagsField])]
    relationsOf := [("articles", "translations", storedTranslationsRelations),
                    ("articles", "tags", storedTagsRelations)] }

/-- A mid-session m2m state in which the user renamed the field under
construction to tags, the name of an existing collection. -/
def c5WitnessState : StoreState :=
  { baseState with
    fieldData := { field := "tags" }
    relations := [{ related_collection := some "articles" }, {}] }

/-- A mid-session m2m state with auto-fill switched off and junction
collection names already set by the user. -/
def c7WitnessState : StoreState :=
  { baseState with
    autoFillJunctionRelation := false
    relations := [{ collection := "my_junction", field := "articles_id",
                    related_collection := some "articles" },
                  { collection := "my_junction", field := "old_id",
                    related_collection := some "old" }] }

/-- A m2o session state in which the user selected the authors collection. -/
def c3WitnessState : StoreState :=
  { baseState with relations := [{ related_collection := some "authors" }] }

/-- A m2o session state in which the chosen related collection does not exist
yet. -/
def c3WitnessStateMissing : StoreState :=
  { baseState with relations := [{ related_collection := some "books" }] }

/-! ## Properties of the decimal printer -/

theorem decCharsAux_congr : ∀ fuel1 fuel2 n, n < fuel1 → n < fuel2 →
    decCharsAux fuel1 n = decCharsAux fuel2 n := by
  intro fuel1
  induction fuel1 with
  | zero => intro fuel2 n h1 _; omega
  | succ f ih =>
    intro fuel2 n h1 h2
    match fuel2, h2 with
    | g + 1, h2 =>
      by_cases h10 : n < 10
      · simp [decCharsAux, h10]
      · have hdiv : n / 10 < n := Nat.div_lt_self (by omega) (by omega)
        simp only [decCharsAux, h10, if_false]
        rw [ih g (n / 10) (by omega) (by omega)]

theorem decCharsAux_succ_eq (n : Nat) :
    decCharsAux (n + 1) n =
      if n < 10 then [jsDigitChar n]
      else decCharsAux (n / 10 + 1) (n / 10) ++ [jsDigitChar (n % 10)] := by
  have hunf : decCharsAux (n + 1) n =
      if n < 10 then [jsDigitChar n] else decCharsAux n (n / 10) ++ [jsDigitChar (n % 10)] := rfl
  rw [hunf]
  by_cases h10 : n < 10
  · rw [if_pos h10, if_pos h10]
  · rw [if_neg h10, if_neg h10,
      decCharsAux_congr n (n / 10 + 1) (n / 10) (by omega) (by omega)]

theorem decCharsAux_succ_ne_nil (n : Nat) : decCharsAux (n + 1) n ≠ [] := by
  rw [decCharsAux_succ_eq]
  split <;> simp

theorem jsDigitChar_inj : ∀ d, d < 10 → ∀ e, e < 10 → jsDigitChar d = jsDigitChar e → d = e := by
  decide

theorem decCharsAux_succ_inj : ∀ n m, decCharsAux (n + 1) n = decCharsAux (m + 1) m → n = m := by
  intro n
  induction n using Nat.strong_induction_on with
  | _ n ih =>
    intro m h
    rw [decCharsAux_succ_eq n, decCharsAux_succ_eq m] at h
    by_cases hn : n < 10 <;> by_cases hm : m < 10
    · rw [if_pos hn, if_pos hm] at h
      injection h with h1 _
      exact jsDigitChar_inj n hn m hm h1
    · rw [if_pos hn, if_neg hm] at h
      have hlen := congrArg List.length h
      simp only [List.length_append, List.length_cons, List.length_nil] at hlen
      have hpos := List.length_pos.mpr (decCharsAux_succ_ne_nil (m / 10))
      omega
    · rw [if_neg hn, if_pos hm] at h
      have hlen := congrArg List.length h
      simp only [List.length_append, List.length_cons, List.length_nil] at hlen
      have hpos := List.length_pos.mpr (decCharsAux_succ_ne_nil (n / 10))
      omega
    · rw [if_neg hn, if_neg hm] at h
      have hrev := congrArg List.reverse h
      rw [List.reverse_append, List.reverse_append] at hrev
      simp only [List.reverse_cons, List.reverse_nil, List.nil_append, List.singleton_append,
        List.cons.injEq] at hrev
      obtain ⟨hdigit, htail⟩ := hrev
      have hdiv : n / 10 = m / 10 :=
        ih (n / 10) (Nat.div_lt_self (by omega) (by omega)) (m / 10) (List.reverse_inj.mp htail)
      have hmod : n % 10 = m % 10 :=
        jsDigitChar_inj (n % 10) (Nat.mod_lt n (by omega)) (m % 10) (Nat.mod_lt m (by omega)) hdigit
      omega

theorem decRepr_inj : ∀ {n m : Nat}, decRepr n = decRepr m → n = m := by
  intro n m h
  exact decCharsAux_succ_inj n m (congrArg String.data h)

theorem decRepr_length_pos (n : Nat) : 1 ≤ (decRepr n).length := by
  have h := decCharsAux_succ_ne_nil n
  have h2 : (decRepr n).length = (decCharsAux (n + 1) n).length := rfl
  rw [h2]
  exact List.length_pos.mpr h

theorem string_data_inj : ∀ {s t : String}, s.data = t.data → s = t := by
  intro s t h
  cases s
  cases t
  exact congrArg String.mk h

theorem string_append_left_cancel : ∀ {s t u : String}, s ++ t = s ++ u → t = u := by
  intro s t u h
  apply string_data_inj
  have h2 := congrArg String.data h
  simp only [String.data_append] at h2
  exact List.append_cancel_left h2

/-! ## Properties of the junction naming helper -/

theorem getName_inj (a b : String) : ∀ i j, getName a b i = getName a b j → i = j := by
  intro i j h
  simp only [getName] at h
  by_cases hi : i = 0 <;> by_cases hj : j = 0
  · omega
  · rw [if_neg (fun hc => hc hi), if_pos hj] at h
    have hlen := congrArg String.length h
    have hpos := decRepr_length_pos j
    simp only [String.length_append] at hlen
    omega
  · rw [if_pos hi, if_neg (fun hc => hc hj)] at h
    have hlen := congrArg String.length h
    have hpos := decRepr_length_pos i
    simp only [String.length_append] at hlen
    omega
  · rw [if_pos hi, if_pos hj] at h
    exact decRepr_inj (string_append_left_cancel h)

theorem collectionExists_iff_mem {cat : Catalog} {n : String} :
    collectionExists cat n = true ↔ n ∈ cat.collections := by
  simp [collectionExists]

theorem exists_free_candidate (cat : Catalog) (a b : String) :
    ∃ i, i ≤ cat.collections.length ∧ collectionExists cat (getName a b i) = false := by
  by_contra hcon
  push_neg at hcon
  have hmem : ∀ i, i ≤ cat.collections.length → getName a b i ∈ cat.collections := by
    intro i hi
    have hne := hcon i hi
    have hb : collectionExists cat (getName a b i) = true := by
      cases hcb : collectionExists cat (getName a b i)
      · exact absurd hcb hne
      · rfl
    exact collectionExists_iff_mem.mp hb
  have hcard : (Finset.range (cat.collections.length + 1)).card ≤ cat.collections.toFinset.card := by
    apply Finset.card_le_card_of_injOn (getName a b)
    · intro i hiR
      rw [Finset.mem_range] at hiR
      exact List.mem_toFinset.mpr (hmem i (by omega))
    · intro i _ j _ hij
      exact getName_inj a b i j hij
  rw [Finset.card_range] at hcard
  have hle : cat.collections.toFinset.card ≤ cat.collections.length :=
    List.toFinset_card_le cat.collections
  omega

theorem findFreeNameAux_eq_getName (cat : Catalog) (a b : String) :
    ∀ fuel i, findFreeNameAux cat a b fuel i = getName a b (junctionNameIndexAux cat a b fuel i) := by
  intro fuel
  induction fuel with
  | zero => intro i; rfl
  | succ f ih =>
    intro i
    simp only [findFreeNameAux, junctionNameIndexAux]
    by_cases hc : collectionExists cat (getName a b i) = true
    · rw [if_pos hc, if_pos hc]
      exact ih (i + 1)
    · rw [if_neg hc, if_neg hc]

theorem junctionNameIndexAux_spec (cat : Catalog) (a b : String) :
    ∀ fuel i, (∃ j, j < fuel ∧ collectionExists cat (getName a b (i + j)) = false) →
      collectionExists cat (getName a b (junctionNameIndexAux cat a b fuel i)) = false ∧
      i ≤ junctionNameIndexAux cat a b fuel i ∧
      ∀ m, i ≤ m → m < junctionNameIndexAux cat a b fuel i →
        collectionExists cat (getName a b m) = true := by
  intro fuel
  induction fuel with
  | zero =>
    intro i h
    obtain ⟨j, hj, _⟩ := h
    omega
  | succ f ih =>
    intro i h
    obtain ⟨j, hj, hfree⟩ := h
    simp only [junctionNameIndexAux]
    by_cases hc : collectionExists cat (getName a b i) = true
    · rw [if_pos hc]
      have hj0 : j ≠ 0 := by
        intro h0
        subst h0
        rw [Nat.add_zero] at hfree
        rw [hfree] at hc
        cases hc
      obtain ⟨j2, rfl⟩ : ∃ j2, j = j2 + 1 := ⟨j - 1, by omega⟩
      have hex : ∃ j2x, j2x < f ∧ collectionExists cat (getName a b (i + 1 + j2x)) = false :=
        ⟨j2, by omega, by rw [show i + 1 + j2 = i + (j2 + 1) from by omega]; exact hfree⟩
      obtain ⟨hf2, hle2, hmin2⟩ := ih (i + 1) hex
      refine ⟨hf2, by omega, ?_⟩
      intro m him hmlt
      by_cases hmi : m = i
      · subst hmi; exact hc
      · exact hmin2 m (by omega) hmlt
    · rw [if_neg hc]
      have hcf : collectionExists cat (getName a b i) = false := by
        cases hcb : collectionExists cat (getName a b i)
        · rfl
        · exact absurd hcb hc
      exact ⟨hcf, Nat.le_refl i, fun m him hmlt => by omega⟩

theorem getAutomaticJunctionCollectionName_spec (cat : Catalog) (a b : String) :
    collectionExists cat (getAutomaticJunctionCollectionName cat a b) = false ∧
    getAutomaticJunctionCollectionName cat a b = getName a b (junctionNameIndex cat a b) ∧
    (∀ m, m < junctionNameIndex cat a b → collectionExists cat (getName a b m) = true) ∧
    junctionNameIndex cat a b ≤ cat.collections.length := by
  obtain ⟨i, hile, hifree⟩ := exists_free_candidate cat a b
  have hex : ∃ j, j < cat.collections.length + 1 ∧
      collectionExists cat (getName a b (0 + j)) = false := by
    refine ⟨i, by omega, ?_⟩
    rw [Nat.zero_add]
    exact hifree
  obtain ⟨hfree, _, hmin⟩ :=
    junctionNameIndexAux_spec cat a b (cat.collections.length + 1) 0 hex
  have heq : getAutomaticJunctionCollectionName cat a b =
      getName a b (junctionNameIndex cat a b) :=
    findFreeNameAux_eq_getName cat a b (cat.collections.length + 1) 0
  have hminz : ∀ m, m < junctionNameIndex cat a b →
      collectionExists cat (getName a b m) = true :=
    fun m hm => hmin m (Nat.zero_le m) hm
  have hfreez : collectionExists cat (getName a b (junctionNameIndex cat a b)) = false := hfree
  refine ⟨?_, heq, hminz, ?_⟩
  · rw [heq]
    exact hfreez
  · by_contra hgt
    push_neg at hgt
    have := hminz i (by omega)
    rw [this] at hifree
    cases hifree

/-- C1: for every catalog snapshot and every pair of base names (a, b), the
junction naming helper returns the first candidate of the sequence a_b,
a_b_1, a_b_2, ... for which collectionExists is false: the returned name is
never present in the catalog, it is the candidate of least index whose
predecessors all collide, and in particular if a_b is taken (and a_b_1 free)
it returns a_b_1, and if a_b and a_b_1 are both taken (and a_b_2 free) it
returns a_b_2. -/
theorem c1_generateJunctionName_first_free (cat : Catalog) (a b : String) :
    collectionExists cat (getAutomaticJunctionCollectionName cat a b) = false ∧
    (∃ n, getAutomaticJunctionCollectionName cat a b = getName a b n ∧
      ∀ m, m < n → collectionExists cat (getName a b m) = true) ∧
    (collectionExists cat (getName a b 0) = false →
      getAutomaticJunctionCollectionName cat a b = getName a b 0) ∧
    (collectionExists cat (getName a b 0) = true →
      collectionExists cat (getName a b 1) = false →
      getAutomaticJunctionCollectionName cat a b = getName a b 1) ∧
    (collectionExists cat (getName a b 0) = true →
      collectionExists cat (getName a b 1) = true →
      collectionExists cat (getName a b 2) = false →
      getAutomaticJunctionCollectionName cat a b = getName a b 2) := by
  obtain ⟨hfree, heq, hmin, _⟩ := getAutomaticJunctionCollectionName_spec cat a b
  have hfreeIdx : collectionExists cat (getName a b (junctionNameIndex cat a b)) = false := by
    rw [← heq]
    exact hfree
  have hleast : ∀ k, collectionExists cat (getName a b k) = false →
      (∀ m, m < k → collectionExists cat (getName a b m) = true) →
      junctionNameIndex cat a b = k := by
    intro k hk hkmin
    rcases Nat.lt_trichotomy (junctionNameIndex cat a b) k with hlt | hE | hgt
    · have := hkmin _ hlt
      rw [this] at hfreeIdx
      cases hfreeIdx
    · exact hE
    · have := hmin k hgt
      rw [this] at hk
      cases hk
  refine ⟨hfree, ⟨junctionNameIndex cat a b, heq, hmin⟩, ?_, ?_, ?_⟩
  · intro h0
    rw [heq, hleast 0 h0 (fun m hm => absurd hm (by omega))]
  · intro h0 h1
    have hk : junctionNameIndex cat a b = 1 := by
      apply hleast 1 h1
      intro m hm
      have : m = 0 := by omega
      rw [this]
      exact h0
    rw [heq, hk]
  · intro h0 h1 h2
    have hk : junctionNameIndex cat a b = 2 := by
      apply hleast 2 h2
      intro m hm
      have hm2 : m = 0 ∨ m = 1 := by omega
      rcases hm2 with h | h <;> rw [h]
      · exact h0
      · exact h1
    rw [heq, hk]

/-- C1 witness: in a catalog where a_b and a_b_1 are taken, the helper
returns a name that is not in the catalog. -/
theorem c1_generateJunctionName_first_free_witness :
    collectionExists catTakenNames (getAutomaticJunctionCollectionName catTakenNames "a" "b") = false ∧
    collectionExists catTakenNames (getName "a" "b" 0) = true ∧
    collectionExists catTakenNames (getName "a" "b" 1) = true ∧
    collectionExists catTakenNames (getName "a" "b" 2) = false ∧
    getAutomaticJunctionCollectionName catTakenNames "a" "b" = getName "a" "b" 2 := by
  have h := c1_generateJunctionName_first_free catTakenNames "a" "b"
  have h0 : collectionExists catTakenNames (getName "a" "b" 0) = true := by decide
  have h1 : collectionExists catTakenNames (getName "a" "b" 1) = true := by decide
  have h2 : collectionExists catTakenNames (getName "a" "b" 2) = false := by decide
  exact ⟨h.1, h0, h1, h2, h.2.2.2.2 h0 h1 h2⟩

/-- C9 (amended): the junction naming helper terminates on every finite
catalog snapshot, and the index it stops at is bounded by the catalog size
(so it performs at most one probe per existing collection plus one); it
always returns a free name.  The code however imposes no fixed cap and
reports no name-space-exhausted condition; see the counterexample. -/
theorem c9_naming_terminates_bounded (cat : Catalog) (a b : String) :
    collectionExists cat (getAutomaticJunctionCollectionName cat a b) = false ∧
    junctionNameIndex cat a b ≤ cat.collections.length ∧
    getAutomaticJunctionCollectionName cat a b = getName a b (junctionNameIndex cat a b) := by
  obtain ⟨h1, h2, _, h4⟩ := getAutomaticJunctionCollectionName_spec cat a b
  exact ⟨h1, h4, h2⟩

/-- C9 counterexample: the suffix attempts of the naming helper are not
capped by any fixed bound — for every proposed cap k there is a finite
catalog on which the helper probes beyond index k (it keeps looping to the
first free name rather than reporting a name-space-exhausted condition).
This proves the negation of the capped-attempts clause of the claim. -/
theorem c9_no_attempt_cap_counterexample :
    ¬ ∃ k, ∀ (cat : Catalog) (a b : String), junctionNameIndex cat a b ≤ k := by
  rintro ⟨k, hk⟩
  let cat : Catalog := { collections := (List.range (k + 1)).map (getName "x" "y") }
  obtain ⟨hfree, heq, _, _⟩ := getAutomaticJunctionCollectionName_spec cat "x" "y"
  have hfr : collectionExists cat (getName "x" "y" (junctionNameIndex cat "x" "y")) = false := by
    rw [← heq]
    exact hfree
  have hmem : getName "x" "y" (junctionNameIndex cat "x" "y") ∈ cat.collections := by
    have hk2 := hk cat "x" "y"
    show getName "x" "y" _ ∈ (List.range (k + 1)).map (getName "x" "y")
    rw [List.mem_map]
    exact ⟨junctionNameIndex cat "x" "y", List.mem_range.mpr (by omega), rfl⟩
  have htrue : collectionExists cat (getName "x" "y" (junctionNameIndex cat "x" "y")) = true :=
    collectionExists_iff_mem.mpr hmem
  rw [htrue] at hfr
  cases hfr

/-- C3: after the m2o related-collection recompute rule runs, FieldDraft.type
equals the primary-key type of the chosen related collection when that
collection exists in the catalog, and equals integer when the chosen value is
empty, absent, or names no existing collection. -/
theorem c3_m2o_type_propagation (cat : Catalog) (s : StoreState) :
    (∀ name pk, (relAt s 0).related_collection = some name → name ≠ "" →
      collectionExists cat name = true →
      getPrimaryKeyFieldForCollection cat name = some pk →
      (m2oRelatedCollectionRule cat s).fieldData.type = pk.type) ∧
    ((jsTruthyO (relAt s 0).related_collection &&
      collectionExistsO cat (relAt s 0).related_collection) = false →
      (m2oRelatedCollectionRule cat s).fieldData.type = some "integer") := by
  constructor
  · intro name pk hrel hname hex hpk
    have hguard : (jsTruthyO (relAt s 0).related_collection &&
        collectionExistsO cat (relAt s 0).related_collection) = true := by
      rw [hrel]
      simp [jsTruthyO, jsTruthy, collectionExistsO, hex, hname]
    rw [m2oRelatedCollectionRule, if_pos hguard, hrel]
    simp [pkTypeO, pkType, hpk]
  · intro hguard
    rw [m2oRelatedCollectionRule, if_neg ?_]
    intro hcon
    rw [hcon] at hguard
    cases hguard

/-- C3 witness: selecting the existing authors collection (uuid primary key)
makes the type uuid; selecting a missing collection makes it integer. -/
theorem c3_m2o_type_propagation_witness :
    (m2oRelatedCollectionRule catAuthors c3WitnessState).fieldData.type = pkIdUuid.type ∧
    (m2oRelatedCollectionRule catAuthors c3WitnessStateMissing).fieldData.type = some "integer" := by
  constructor
  · exact (c3_m2o_type_propagation catAuthors c3WitnessState).1 "authors" pkIdUuid
      (by decide) (by decide) (by decide) (by decide)
  · exact (c3_m2o_type_propagation catAuthors c3WitnessStateMissing).2 (by decide)

/-! ## Idempotence of the derived-list recompute rules -/

theorem filter_if_singleton {α : Type} (p : α → Bool) (c : Prop) [Decidable c] (e : α)
    (he : p e = false) : (if c then [e] else []).filter p = [] := by
  split
  · simp [List.filter_cons, he]
  · rfl

theorem syncNewCollectionsO2M_idem (cat : Catalog) (cn fn : String) (sf : Option String)
    (s : StoreState) :
    syncNewCollectionsO2M cat cn fn sf (syncNewCollectionsO2M cat cn fn sf s) =
      syncNewCollectionsO2M cat cn fn sf s := by
  obtain ⟨fd, rels, ncs, nfs, ufs, nrs, af⟩ := s
  have hR : (if collectionExists cat cn = false then [o2mRelatedCollectionEntry cn] else []).filter
      (fun col => !(jsIncludes ["related"] col.typeTag)) = [] :=
    filter_if_singleton _ _ _ rfl
  have hM : (if fieldExists cat cn fn = false then
        [o2mManyRelatedFieldEntry cn fn
          (if collectionExists cat cn = true then pkType cat cn else some "integer")]
      else []).filter (fun f => !(jsIncludes ["manyRelated", "sort"] f.typeTag)) = [] :=
    filter_if_singleton _ _ _ rfl
  have hS : (if (jsTruthyO sf && !(fieldExistsO cat cn sf)) = true then
        [sortFieldEntry cn (jsStrU sf)]
      else []).filter (fun f => !(jsIncludes ["manyRelated", "sort"] f.typeTag)) = [] :=
    filter_if_singleton _ _ _ rfl
  simp only [syncNewCollectionsO2M, StoreState.mk.injEq]
  refine ⟨trivial, trivial, ?_, ?_, trivial, trivial, trivial⟩
  · rw [List.filter_append, hR, List.append_nil, List.filter_filter]
    simp [Bool.and_self]
  · rw [List.filter_append, List.filter_append, hM, hS, List.append_nil, List.append_nil,
      List.filter_filter]
    simp [Bool.and_self]

theorem syncNewCollectionsM2M_idem (cat : Catalog) (tp collection jc mc mr : String)
    (rc sf : Option String) (s : StoreState) :
    syncNewCollectionsM2M cat tp collection jc mc mr rc sf
        (syncNewCollectionsM2M cat tp collection jc mc mr rc sf s) =
      syncNewCollectionsM2M cat tp collection jc mc mr rc sf s := by
  obtain ⟨fd, rels, ncs, nfs, ufs, nrs, af⟩ := s
  have hJ : (if collectionExists cat jc = false then [junctionCollectionEntry jc] else []).filter
      (fun col => !(jsIncludes ["junction", "related"] col.typeTag)) = [] :=
    filter_if_singleton _ _ _ rfl
  have hRel : (if collectionExistsO cat rc = false then
        (if tp == "translations" then [translationsRelatedCollectionEntry rc]
         else [m2mRelatedCollectionEntry rc])
      else []).filter (fun col => !(jsIncludes ["junction", "related"] col.typeTag)) = [] := by
    split
    · split
      · rfl
      · rfl
    · rfl
  have hMC : (if fieldExists cat jc mc = false then
        [manyCurrentFieldEntry jc mc (pkType cat collection)]
      else []).filter (fun f => !(jsIncludes ["manyCurrent", "manyRelated", "sort"] f.typeTag)) = [] :=
    filter_if_singleton _ _ _ rfl
  have hMR : (if fieldExists cat jc mr = false then
        (if tp == "translations" then
          [manyRelatedFieldEntry jc mr
            (if collectionExistsO cat rc = true then pkTypeO cat rc else some "string")]
        else
          [manyRelatedFieldEntry jc mr
            (if collectionExistsO cat rc = true then pkTypeO cat rc else some "integer")])
      else []).filter (fun f => !(jsIncludes ["manyCurrent", "manyRelated", "sort"] f.typeTag)) = [] := by
    split
    · split
      · rfl
      · rfl
    · rfl
  have hS : (if (jsTruthyO sf && !(fieldExistsO cat jc sf)) = true then
        [sortFieldEntry jc (jsStrU sf)]
      else []).filter (fun f => !(jsIncludes ["manyCurrent", "manyRelated", "sort"] f.typeTag)) = [] :=
    filter_if_singleton _ _ _ rfl
  simp only [syncNewCollectionsM2M, StoreState.mk.injEq]
  refine ⟨trivial, trivial, ?_, ?_, trivial, ?_, trivial⟩
  · rw [List.filter_append, List.filter_append, hJ, hRel, List.append_nil, List.append_nil,
      List.filter_filter]
    simp [Bool.and_self]
  · rw [List.filter_append, List.filter_append, List.filter_append, hMC, hMR, hS,
      List.append_nil, List.append_nil, List.append_nil, List.filter_filter]
    simp [Bool.and_self]
  · by_cases htp : (tp == "translations") = true <;> simp [htp]

theorem syncNewCollectionsM2A_idem (cat : Catalog) (collection jc mc mr : String)
    (ocf sf : Option String) (s : StoreState) :
    syncNewCollectionsM2A cat collection jc mc mr ocf sf
        (syncNewCollectionsM2A cat collection jc mc mr ocf sf s) =
      syncNewCollectionsM2A cat collection jc mc mr ocf sf s := by
  obtain ⟨fd, rels, ncs, nfs, ufs, nrs, af⟩ := s
  have hJ : (if collectionExists cat jc = false then [junctionCollectionEntry jc] else []).filter
      (fun col => !(jsIncludes ["junction", "related"] col.typeTag)) = [] :=
    filter_if_singleton _ _ _ rfl
  have hMC : (if fieldExists cat jc mc = false then
        [manyCurrentFieldEntry jc mc (pkType cat collection)]
      else []).filter
      (fun f => !(jsIncludes ["manyCurrent", "manyRelated", "collectionField", "sort"] f.typeTag)) = [] :=
    filter_if_singleton _ _ _ rfl
  have hMR : (if fieldExists cat jc mr = false then
        [manyRelatedFieldEntry jc mr (some "string")]
      else []).filter
      (fun f => !(jsIncludes ["manyCurrent", "manyRelated", "collectionField", "sort"] f.typeTag)) = [] :=
    filter_if_singleton _ _ _ rfl
  have hCF : (if fieldExistsO cat jc ocf = false then
        [collectionFieldEntry jc (jsStrU ocf)]
      else []).filter
      (fun f => !(jsIncludes ["manyCurrent", "manyRelated", "collectionField", "sort"] f.typeTag)) = [] :=
    filter_if_singleton _ _ _ rfl
  have hS : (if (jsTruthyO sf && !(fieldExistsO cat jc sf)) = true then
        [sortFieldEntry jc (jsStrU sf)]
      else []).filter
      (fun f => !(jsIncludes ["manyCurrent", "manyRelated", "collectionField", "sort"] f.typeTag)) = [] :=
    filter_if_singleton _ _ _ rfl
  simp only [syncNewCollectionsM2A, StoreState.mk.injEq]
  refine ⟨trivial, trivial, ?_, ?_, trivial, trivial, trivial⟩
  · rw [List.filter_append, hJ, List.append_nil, List.filter_filter]
    simp [Bool.and_self]
  · rw [List.filter_append, List.filter_append, List.filter_append, List.filter_append,
      hMC, hMR, hCF, hS, List.append_nil, List.append_nil, List.append_nil, List.append_nil,
      List.filter_filter]
    simp [Bool.and_self]

/-- C6: each derived-list recompute rule (the o2m, m2m and m2a sync bodies)
is idempotent: with unchanged watched inputs and an unchanged catalog,
running the rule a second time leaves newCollections, newFields and newRows
exactly as the first run produced them (each rule first removes every entry
carrying the type tags it owns and then re-adds the currently needed ones,
at most one entry per owned tag). -/
theorem c6_sync_rules_idempotent (cat : Catalog) (tp collection cn fn jc mc mr : String)
    (rc ocf sf : Option String) (s : StoreState) :
    syncNewCollectionsO2M cat cn fn sf (syncNewCollectionsO2M cat cn fn sf s) =
      syncNewCollectionsO2M cat cn fn sf s ∧
    syncNewCollectionsM2M cat tp collection jc mc mr rc sf
        (syncNewCollectionsM2M cat tp collection jc mc mr rc sf s) =
      syncNewCollectionsM2M cat tp collection jc mc mr rc sf s ∧
    syncNewCollectionsM2A cat collection jc mc mr ocf sf
        (syncNewCollectionsM2A cat collection jc mc mr ocf sf s) =
      syncNewCollectionsM2A cat collection jc mc mr ocf sf s :=
  ⟨syncNewCollectionsO2M_idem cat cn fn sf s,
   syncNewCollectionsM2M_idem cat tp collection jc mc mr rc sf s,
   syncNewCollectionsM2A_idem cat collection jc mc mr ocf sf s⟩

/-- C10: in the m2a strategy, the autofill rule that fires when
autoFillJunctionRelation becomes true interpolates
relations[0].one_primary, a property no code path ever assigns; hence for
every new m2a session the auto-filled relations[0].field equals the parent
collection name followed by the literal suffix _undefined, and one_primary is
indeed still absent in the resulting state. -/
theorem c10_m2a_undefined_suffix (cat : Catalog) (collection : String) :
    (relAt (initLocalStoreNew cat collection "m2a") 0).field = collection ++ "_undefined" ∧
    (relAt (initLocalStoreNew cat collection "m2a") 0).one_primary = none := by
  have hlit : ("_" ++ "undefined" : String) = "_undefined" := rfl
  constructor
  · simp [initLocalStoreNew, useM2ANew, m2aAutoFillToggleBody, deleteSchemaAndType,
      withFieldMeta, withRelMeta, setRel, relAt, listModify, baseState, initialFieldData,
      syncM2AFromState, syncNewCollectionsM2A, jsStrU]
    rw [String.append_assoc, hlit]
  · simp [initLocalStoreNew, useM2ANew, m2aAutoFillToggleBody, deleteSchemaAndType,
      withFieldMeta, withRelMeta, setRel, relAt, listModify, baseState, initialFieldData,
      syncM2AFromState, syncNewCollectionsM2A, jsStrU]

/-- C8: evaluation of the teardown model at the failing input.  Two
dependency mutations inside one 50 ms throttle window schedule a trailing
invocation of a throttled sync rule; clearLocalStore then runs (it only nulls
the state cell, store.ts 964-966, and cancels nothing), and when the window
elapses the pending sync rule still runs — after teardown, against the
discarded state.  The claim says this can never happen. -/
theorem c8_trailing_sync_survives_teardown :
    (fdRun [.mutateDep, .mutateDep, .teardown, .throttleWindowElapse]).syncRanAfterTeardown = true ∧
    (fdRun [.mutateDep, .mutateDep, .teardown]).runtime.pendingTrailingSync = true ∧
    (fdRun [.mutateDep, .mutateDep, .teardown]).runtime.store = none :=
  ⟨rfl, rfl, rfl⟩

/-! ## Frame lemmas for list mutation -/

theorem setRel_autoFill (i : Nat) (f : RelationDraft → RelationDraft) (s : StoreState) :
    (setRel i f s).autoFillJunctionRelation = s.autoFillJunctionRelation := rfl

theorem getD_listModify_ne {α : Type} (f : α → α) :
    ∀ (i j : Nat), i ≠ j → ∀ (l : List α) (d : α),
      (listModify f i l).getD j d = l.getD j d := by
  intro i j hij l
  induction l generalizing i j with
  | nil => intro d; cases i <;> rfl
  | cons x xs ih =>
    intro d
    cases i with
    | zero =>
      cases j with
      | zero => omega
      | succ j2 => simp [listModify, List.getD_cons_succ]
    | succ i2 =>
      cases j with
      | zero => simp [listModify, List.getD_cons_zero]
      | succ j2 =>
        simp only [listModify, List.getD_cons_succ]
        exact ih i2 j2 (by omega) d

theorem getD_listModify_map {α β : Type} (f : α → α) (g : α → β) (hg : ∀ a, g (f a) = g a) :
    ∀ (i : Nat) (l : List α) (d : α),
      g ((listModify f i l).getD i d) = g (l.getD i d) := by
  intro i l
  induction l generalizing i with
  | nil => intro d; cases i <;> rfl
  | cons x xs ih =>
    intro d
    cases i with
    | zero => simp [listModify, List.getD_cons_zero, hg]
    | succ i2 =>
      simp only [listModify, List.getD_cons_succ]
      exact ih i2 d

/-- C7: with autoFillJunctionRelation off, a change of
relations[1].related_collection (and the rules it still triggers — only the
throttled sync, since the junction autofill watcher is stopped while the
toggle is off) leaves the junction collection names relations[0].collection
and relations[1].collection untouched: last writer wins. -/
theorem c7_autofill_off_keeps_junction_names (cat : Catalog) (tp collection : String)
    (newRelated : Option String) (s : StoreState)
    (h : s.autoFillJunctionRelation = false) :
    (relAt (m2mRelatedCollectionChanged cat tp collection newRelated s) 0).collection =
      (relAt s 0).collection ∧
    (relAt (m2mRelatedCollectionChanged cat tp collection newRelated s) 1).collection =
      (relAt s 1).collection := by
  simp only [m2mRelatedCollectionChanged, setRel_autoFill, h, Bool.false_and, Bool.and_eq_true,
    if_neg, ite_false, Bool.false_eq_true, syncM2MFromState, syncNewCollectionsM2M, relAt,
    setRel]
  constructor
  · rw [getD_listModify_ne _ 1 0 (by omega)]
  · exact getD_listModify_map (fun r => { r with related_collection := newRelated })
      RelationDraft.collection (fun a => rfl) 1 s.relations _

/-- C7 witness: in a session with auto-fill off and junction names already
set to my_junction, choosing a different related collection leaves both
junction collection names equal to my_junction. -/
theorem c7_autofill_off_keeps_junction_names_witness :
    (relAt (m2mRelatedCollectionChanged catArticles "m2m" "articles" (some "tags")
      c7WitnessState) 0).collection = "my_junction" ∧
    (relAt (m2mRelatedCollectionChanged catArticles "m2m" "articles" (some "tags")
      c7WitnessState) 1).collection = "my_junction" := by
  have h := c7_autofill_off_keeps_junction_names catArticles "m2m" "articles" (some "tags")
    c7WitnessState rfl
  constructor
  · rw [h.1]; rfl
  · rw [h.2]; rfl

/-! ## The m2m junction foreign-key disambiguation -/

theorem string_append_right_cancel : ∀ {s t u : String}, s ++ u = t ++ u → s = t := by
  intro s t u h
  apply string_data_inj
  have h2 := congrArg String.data h
  simp only [String.data_append] at h2
  exact List.append_cancel_right h2

theorem append_id_ne_append_related_id (x : String) : x ++ "_id" ≠ x ++ "_related_id" := by
  intro h
  have hlen := congrArg String.length h
  have h3 : ("_id" : String).length = 3 := rfl
  have h11 : ("_related_id" : String).length = 11 := rfl
  simp only [String.length_append, h3, h11] at hlen
  omega

theorem jsStrU_some (x : String) : jsStrU (some x) = x := rfl

/-- C5 (amended): in the m2m rule that fires when the field under
construction is renamed to the name of an existing collection, the two
junction foreign-key column names are recomputed, and whenever the two
freshly computed names would be identical the second is renamed to
related_related_id, so after this rule the two names never coincide.  The
unrestricted claimed invariant is false: see the counterexample (the fresh
m2m session has both names equal). -/
theorem c5_m2m_junction_fk_disambiguation (cat : Catalog) (tp : String) (s : StoreState)
    (r0 r1 : RelationDraft) (rest : List RelationDraft)
    (hrels : s.relations = r0 :: r1 :: rest)
    (hfield : jsTruthy s.fieldData.field = true)
    (hex : collectionExists cat s.fieldData.field = true)
    (htp : (tp == "translations") = false) :
    (relAt (m2mFieldDataFieldChangedBody cat tp s) 0).field ≠
      (relAt (m2mFieldDataFieldChangedBody cat tp s) 1).field ∧
    (jsStrU r0.related_collection = s.fieldData.field →
      (relAt (m2mFieldDataFieldChangedBody cat tp s) 1).field =
        s.fieldData.field ++ "_related_id") := by
  by_cases hAB : jsStrU r0.related_collection = s.fieldData.field
  · have hcond : (jsStrU r0.related_collection ++ "_id" == s.fieldData.field ++ "_id") = true := by
      rw [hAB]
      exact beq_self_eq_true _
    constructor
    · simp only [m2mFieldDataFieldChangedBody, hrels, hfield, hex, htp, withRelMeta, setRel,
        listModify, relAt, Bool.not_false, Bool.and_self, Bool.true_and, Bool.and_true,
        ite_true, List.getD_cons_zero, List.getD_cons_succ, jsStrU_some, hcond]
      rw [hAB]
      exact append_id_ne_append_related_id _
    · intro _
      simp only [m2mFieldDataFieldChangedBody, hrels, hfield, hex, htp, withRelMeta, setRel,
        listModify, relAt, Bool.not_false, Bool.and_self, Bool.true_and, Bool.and_true,
        ite_true, List.getD_cons_zero, List.getD_cons_succ, jsStrU_some, hcond]
  · have hcond : (jsStrU r0.related_collection ++ "_id" == s.fieldData.field ++ "_id") = false := by
      rw [beq_eq_false_iff_ne]
      exact fun hc => hAB (string_append_right_cancel hc)
    constructor
    · simp only [m2mFieldDataFieldChangedBody, hrels, hfield, hex, htp, withRelMeta, setRel,
        listModify, relAt, Bool.not_false, Bool.and_self, Bool.true_and, Bool.and_true,
        ite_true, ite_false, List.getD_cons_zero, List.getD_cons_succ, jsStrU_some, hcond,
        Bool.false_eq_true, if_false]
      exact fun hc => hAB (string_append_right_cancel hc)
    · intro hcon
      exact absurd hcon hAB

/-- C5 counterexample: the claimed invariant (the two junction foreign-key
field names never coincide in any reachable session state) is false at a
concrete input — in the freshly initialized new m2m session, a reachable
state, both names are the empty string, hence they coincide. -/
theorem c5_initial_state_names_coincide :
    (relAt (initLocalStoreNew catArticles "articles" "m2m") 0).field =
      (relAt (initLocalStoreNew catArticles "articles" "m2m") 1).field ∧
    (relAt (initLocalStoreNew catArticles "articles" "m2m") 0).field = "" :=
  ⟨rfl, rfl⟩

/-- C5 witness: renaming the field under construction to tags (an existing
collection) in a session whose parent is articles recomputes both junction
foreign-key names, and they differ. -/
theorem c5_m2m_junction_fk_disambiguation_witness :
    (relAt (m2mFieldDataFieldChangedBody catExistingFields "m2m" c5WitnessState) 0).field ≠
      (relAt (m2mFieldDataFieldChangedBody catExistingFields "m2m" c5WitnessState) 1).field :=
  (c5_m2m_junction_fk_disambiguation catExistingFields "m2m" c5WitnessState
    { related_collection := some "articles" } {} [] rfl (by decide) (by decide) rfl).1

/-- C2 (amended): initializing a new translations field on a collection with
a primary key, when neither the languages collection nor the derived junction
name collection_translations exists in the catalog, derives exactly: a
junction collection whose single initial field is an integer auto-increment
id that is NOT flagged primary key in the draft schema (store.ts 392-404
omits is_primary_key), a related languages collection with a string primary
key id plus a string name field, a junction foreign-key field typed with the
parent primary-key type, a second junction foreign-key field typed string,
and the seed-row set for languages with exactly the 7 starter locale rows. -/
theorem c2_translations_scaffold (cat : Catalog) (collection : String) (pk : FieldDraft)
    (hpk : getPrimaryKeyFieldForCollection cat collection = some pk)
    (hlang : collectionExists cat "languages" = false)
    (hjunc : collectionExists cat (collection ++ "_translations") = false) :
    (initLocalStoreNew cat collection "translations").newCollections =
      [junctionCollectionEntry (collection ++ "_translations"),
       translationsRelatedCollectionEntry (some "languages")] ∧
    (initLocalStoreNew cat collection "translations").newFields =
      [manyCurrentFieldEntry (collection ++ "_translations") (collection ++ "_" ++ pk.field) pk.type,
       manyRelatedFieldEntry (collection ++ "_translations") "languages_id" (some "string")] ∧
    (initLocalStoreNew cat collection "translations").newRows =
      [("languages", languageSeedRows)] ∧
    (junctionCollectionEntry (collection ++ "_translations")).fields.map
      (fun f => (f.type, (f.schema.getD {}).has_auto_increment, (f.schema.getD {}).is_primary_key)) =
      [(some "integer", some true, none)] ∧
    (translationsRelatedCollectionEntry (some "languages")).fields.map
      (fun f => (f.field, f.type, (f.schema.getD {}).is_primary_key)) =
      [("id", some "string", some true), ("name", some "string", none)] := by
  have hlid : ("languages" ++ "_id" : String) = "languages_id" := rfl
  refine ⟨?_, ?_, ?_, rfl, rfl⟩ <;>
    simp [initLocalStoreNew, useM2MNew, useM2MNewRelations, applyTranslationsBlock,
      deleteSchemaAndType, withFieldMeta, withRelMeta, setRel, relAt, listModify, baseState,
      initialFieldData, syncM2MFromState, syncNewCollectionsM2M, jsStrU_some, pkFieldName,
      pkType, pkTypeO, hpk, hlang, hjunc, fieldExists, collectionExistsO, jsTruthyO, hlid]

/-- C2 counterexample: the claim as stated is false at the concrete input
(catalog holding only articles with an integer primary key, new translations
field): the derived junction collection does carry the junction tag and an
integer auto-increment id field, but no field of the junction draft has the
primary-key flag, while the claim asserts an integer auto-increment primary
key. -/
theorem c2_junction_id_not_primary_key :
    ((initLocalStoreNew catArticles "articles" "translations").newCollections.getD 0
      {}).typeTag = some "junction" ∧
    ((initLocalStoreNew catArticles "articles" "translations").newCollections.getD 0
      {}).fields.map (fun f => (f.type, (f.schema.getD {}).has_auto_increment,
        (f.schema.getD {}).is_primary_key)) = [(some "integer", some true, none)] ∧
    ((initLocalStoreNew catArticles "articles" "translations").newCollections.getD 0
      {}).fields.all (fun f => !((f.schema.getD {}).is_primary_key == some true)) = true := by
  decide

/-- C2 witness: the amended scaffold theorem applied to the concrete catalog
holding only articles with an integer primary key. -/
theorem c2_translations_scaffold_witness :
    (initLocalStoreNew catArticles "articles" "translations").newRows =
      [("languages", languageSeedRows)] ∧
    (initLocalStoreNew catArticles "articles" "translations").newFields =
      [manyCurrentFieldEntry ("articles" ++ "_translations")
        ("articles" ++ "_" ++ pkIdInteger.field) pkIdInteger.type,
       manyRelatedFieldEntry ("articles" ++ "_translations") "languages_id" (some "string")] := by
  have h := c2_translations_scaffold catArticles "articles" pkIdInteger
    (by decide) (by decide) (by decide)
  exact ⟨h.2.2.1, h.2.1⟩

/-- C4 (amended): loading an existing m2m field seeds the session from the
catalog and generates zero proposals: the RelationDrafts equal the stored
relation records exactly, newCollections, newFields and newRows are empty,
and FieldDraft keeps the stored field name and meta — but the relational
category hook deletes the seeded schema and type (store.ts 372-373), so
those two keys do not survive.  The claim fails for every category: the
translations hook additionally overwrites the seeded relations (see the
counterexample), and usePresentation overwrites schema, type and special
even for existing fields. -/
theorem c4_existing_m2m_roundtrip (cat : Catalog) (collection field : String) (fr : FieldDraft)
    (hf : (field == "+") = false)
    (hg : getField cat collection field = some fr) :
    initLocalStore cat collection field "m2m" =
      some { baseState with
        fieldData := { field := fr.field, type := none, schema := none, meta := fr.meta }
        relations := getRelationsForField cat collection field } := by
  simp [initLocalStore, hf, initLocalStoreExisting, hg, deleteSchemaAndType, baseState]

/-- C4 counterexample: the claim as stated is false at a concrete input — for
the existing translations field of articles (stored with junction collection
custom_junction) the translations block still runs during initialization:
the loaded RelationDrafts are overwritten (relations[0].collection becomes
articles_translations instead of the stored custom_junction) and
new-collection proposals are generated for an existing field. -/
theorem c4_existing_translations_clobbered :
    ((initLocalStore catExistingFields "articles" "translations" "translations").getD
        baseState).relations ≠
      getRelationsForField catExistingFields "articles" "translations" ∧
    (relAt ((initLocalStore catExistingFields "articles" "translations" "translations").getD
        baseState) 0).collection = "articles_translations" ∧
    ((getRelationsForField catExistingFields "articles" "translations").getD 0 {}).collection =
      "custom_junction" ∧
    ((initLocalStore catExistingFields "articles" "translations" "translations").getD
        baseState).newCollections ≠ [] := by
  decide

/-- C4 witness: the round-trip theorem applied to the stored m2m field tags
of articles. -/
theorem c4_existing_m2m_roundtrip_witness :
    initLocalStore catExistingFields "articles" "tags" "m2m" =
      some { baseState with
        fieldData := { field := "tags", type := none, schema := none,
                       meta := some { special := some ["m2m"] } }
        relations := storedTagsRelations } := by
  have h := c4_existing_m2m_roundtrip catExistingFields "articles" "tags" storedTagsField
    (by decide) (by decide)
  rw [h]
  decide
